import Mathlib

/-!
Verification of `lastModifiedListener.js`, the incremental change-propagation
poller (PostgreSQL change-log → search-sink documents, watermarked per config).

The JavaScript is shallowly embedded: every external collaborator
(Elasticsearch metadata store, the PostgreSQL change-log, the external field
content processor, the Azure Search sink) is a field of an `Env` record, and
each embedded function returns its result (`Except Unit α`, error = JS throw)
together with the list of external calls it performed, in order (`List Event`).
Timestamps are modelled as `Nat` (milliseconds since the epoch); a JavaScript
`Date` that may be invalid is `Option Nat` (`none` = Invalid Date).
-/

/-- The `updatedAt` field of a stored sync config, as JavaScript sees it:
absent (`undefined`), the empty string, a string that parses to a timestamp,
or a string `Date` cannot parse. -/
inductive DateInput where
  | absent
  | emptyStr
  | parseable (t : Nat)
  | unparseable (s : String)
  deriving DecidableEq

/-- The `source` sub-object of a config document (the Elasticsearch `_source`). -/
structure SourceCfg where
  host : String
  user : String
  password : String
  database : String
  table_name : String
  field_name : String
  field_type : String
  category : String
  coid : String
  updatedAt : DateInput
  deriving DecidableEq

/-- A config document as produced by `fetchIndexDetails`:
`{ source: hit._source, id: hit._id }`. -/
structure Config where
  id : String
  source : SourceCfg
  deriving DecidableEq

/-- One row of `<table>_changelog` as returned by the query
`SELECT row_id, change_time, new_value AS <field>, action_type`. -/
structure ChangeRow where
  row_id : Nat
  change_time : Nat
  new_value : String
  action_type : String
  deriving DecidableEq

/-- The document pushed to the sink (lines 113–121 of the source). -/
structure SinkDoc where
  action : String
  id : String
  title : String
  content : String
  description : String
  image : Option String
  category : String
  deriving DecidableEq

/-- Outcome of the external `processFieldContent(row[fieldName], fieldType)`:
it returns a string (possibly empty, i.e. falsy) or throws. -/
inductive ProcResult where
  | content (s : String)
  | thrown
  deriving DecidableEq

/-- One external call made by the embedded code, in program order. -/
inductive Event where
  | esCatIndices
  | esSearch (indexName : String)
  | esUpdate (indexName : String) (docId : String) (watermark : Nat)
  | pgConnect
  | pgQuery (table : String) (cursor : Option Nat)
  | pgRelease
  | sinkPush (docs : List SinkDoc) (indexName : String)
  deriving DecidableEq

/-- The external world: what each collaborator call returns.
`Except.error` models the collaborator throwing. -/
structure Env where
  catIndices : Except Unit (List String)
  searchHits : String → Except Unit (List Config)
  connect : Config → Bool
  queryRows : String → Nat → Except Unit (List ChangeRow)
  esUpdateOk : String → String → Bool
  proc : String → String → ProcResult
  pushOk : List SinkDoc → String → Bool

/-- JavaScript `s.toLowerCase()` (ASCII, as used for the `coid` codes). -/
def toLowerCase (s : String) : String :=
  ⟨s.data.map Char.toLower⟩

/-- `new Date(config.source.updatedAt || 0)` (line 80): absent or empty
(falsy) `updatedAt` gives the epoch, a parseable string its timestamp, an
unparseable string an Invalid Date (`none`). -/
def lastIndexedTime : DateInput → Option Nat
  | .absent => some 0
  | .emptyStr => some 0
  | .parseable t => some t
  | .unparseable _ => none

/-- `fetchIndicesWithPrefix` (lines 5–14): list the catalog, keep names
starting with the given text; rethrow on catalog failure. -/
def fetchIndicesWithPrefix (env : Env) (pre : String) :
    Except Unit (List String) × List Event :=
  match env.catIndices with
  | .ok result => (.ok (result.filter (fun name => name.startsWith pre)), [.esCatIndices])
  | .error _ => (.error (), [.esCatIndices])

/-- `fetchIndexDetails` (lines 16–35): full scan of one index, mapped to
`{source, id}` documents; rethrow on failure. -/
def fetchIndexDetails (env : Env) (indexName : String) :
    Except Unit (List Config) × List Event :=
  match env.searchHits indexName with
  | .ok hits => (.ok hits, [.esSearch indexName])
  | .error _ => (.error (), [.esSearch indexName])

/-- `updateTimeInElasticsearch` (lines 37–53): write the watermark into the
config document; rethrow on failure. The call is recorded in the trace even
when the store rejects it. -/
def updateTimeInElasticsearch (env : Env) (indexName docId : String) (updatedAt : Nat) :
    Except Unit Unit × List Event :=
  if env.esUpdateOk indexName docId then
    (.ok (), [.esUpdate indexName docId updatedAt])
  else
    (.error (), [.esUpdate indexName docId updatedAt])

/-- `fetchUpdatedRows` (lines 55–99). A fresh pool/client is acquired per
call; `pool.connect()` failing throws before any session exists. Inside the
`try`, the change-log is queried with cursor `new Date(updatedAt || 0)`
(an Invalid Date cursor makes the parameterised query fail at the source),
and when at least one row came back the watermark is written to the metadata
store from inside this function, before returning the rows. The `finally`
releases the session on every path that acquired it. -/
def fetchUpdatedRows (env : Env) (config : Config) :
    Except Unit (List ChangeRow) × List Event :=
  if env.connect config then
    match lastIndexedTime config.source.updatedAt with
    | none =>
      (.error (), [.pgConnect,
        .pgQuery (config.source.table_name ++ "_changelog") none, .pgRelease])
    | some cursor =>
      match env.queryRows (config.source.table_name ++ "_changelog") cursor with
      | .error _ =>
        (.error (), [.pgConnect,
          .pgQuery (config.source.table_name ++ "_changelog") (some cursor), .pgRelease])
      | .ok rows =>
        match rows.getLast? with
        | none =>
          (.ok rows, [.pgConnect,
            .pgQuery (config.source.table_name ++ "_changelog") (some cursor), .pgRelease])
        | some lastRow =>
          match updateTimeInElasticsearch env
              ("datasource_postgresql_connection_" ++ toLowerCase config.source.coid)
              config.id lastRow.change_time with
          | (.ok _, utr) =>
            (.ok rows, [.pgConnect,
              .pgQuery (config.source.table_name ++ "_changelog") (some cursor)] ++
              utr ++ [.pgRelease])
          | (.error _, utr) =>
            (.error (), [.pgConnect,
              .pgQuery (config.source.table_name ++ "_changelog") (some cursor)] ++
              utr ++ [.pgRelease])
  else
    (.error (), [])

/-- The document built for one row (lines 113–121). -/
def sinkDocumentFor (row : ChangeRow) (content category : String) : SinkDoc :=
  { action := if row.action_type = "INSERT" then "upload" else "mergeOrUpload"
    id := toString row.row_id
    title := "Default Title for Row " ++ toString row.row_id
    content := content
    description := "Default Description for Row " ++ toString row.row_id
    image := none
    category := category }

/-- The per-row body of the transformation loop (lines 104–126): run the
content processor; a throw is caught and the row skipped, falsy (empty)
content skips the row, otherwise a document is produced. -/
def transformRow (env : Env) (fieldType category : String) (row : ChangeRow) :
    Option SinkDoc :=
  match env.proc row.new_value fieldType with
  | .thrown => none
  | .content s => if s = "" then none else some (sinkDocumentFor row s category)

/-- The `documents` array accumulated by the loop in `processAndIndexData`. -/
def buildDocuments (env : Env) (rows : List ChangeRow) (fieldType category : String) :
    List SinkDoc :=
  rows.filterMap (transformRow env fieldType category)

/-- `pushToAzureSearch` (lines 136–155): one bulk POST; rethrow on failure. -/
def pushToAzureSearch (env : Env) (documents : List SinkDoc) (indexName : String) :
    Except Unit Unit × List Event :=
  if env.pushOk documents indexName then
    (.ok (), [.sinkPush documents indexName])
  else
    (.error (), [.sinkPush documents indexName])

/-- `processAndIndexData` (lines 101–134): transform the rows, then push the
batch only when at least one document was produced. -/
def processAndIndexData (env : Env) (rows : List ChangeRow)
    (fieldType category indexName : String) : Except Unit Unit × List Event :=
  if (buildDocuments env rows fieldType category).isEmpty then
    (.ok (), [])
  else
    pushToAzureSearch env (buildDocuments env rows fieldType category) indexName

/-- The `try` body for one config (lines 163–169): fetch, and when rows came
back, transform and push into `tenant_<coid>`. -/
def processConfigBody (env : Env) (config : Config) : Except Unit Unit × List Event :=
  match fetchUpdatedRows env config with
  | (.error _, tr) => (.error (), tr)
  | (.ok rows, tr) =>
    if rows.length > 0 then
      ((processAndIndexData env rows config.source.field_type
          config.source.category ("tenant_" ++ toLowerCase config.source.coid)).1,
        tr ++ (processAndIndexData env rows config.source.field_type
          config.source.category ("tenant_" ++ toLowerCase config.source.coid)).2)
    else
      (.ok (), tr)

/-- One config iteration with its `catch` (lines 162–172): the failure is
logged and swallowed, only the external calls remain observable. -/
def processConfig (env : Env) (config : Config) : List Event :=
  (processConfigBody env config).2

/-- The inner `for` loop over one index's configs. -/
def processConfigs (env : Env) : List Config → List Event
  | [] => []
  | c :: rest => processConfig env c ++ processConfigs env rest

/-- One index iteration with its `catch` (lines 158–176): read the configs;
on failure log and move on, otherwise run every config. -/
def processIndex (env : Env) (indexName : String) : List Event :=
  match fetchIndexDetails env indexName with
  | (.error _, tr) => tr
  | (.ok cfgs, tr) => tr ++ processConfigs env cfgs

/-- `processIndices` (lines 157–178): the outer `for` loop. -/
def processIndices (env : Env) : List String → List Event
  | [] => []
  | i :: rest => processIndex env i ++ processIndices env rest

/-- `lastModifiedListener` (lines 180–193): discover, then process; the
top-level `catch` logs every error, including a discovery failure, so the
export always resolves normally. -/
def lastModifiedListener (env : Env) : Except Unit Unit × List Event :=
  match fetchIndicesWithPrefix env "datasource_postgresql_connection_" with
  | (.error _, tr) => (.ok (), tr)
  | (.ok indices, tr) =>
    if indices.length > 0 then (.ok (), tr ++ processIndices env indices)
    else (.ok (), tr)

/-- An event is a checkpoint (watermark) write to the metadata store. -/
def isCheckpointWrite : Event → Bool
  | .esUpdate _ _ _ => true
  | _ => false

/-- An event is a publish request to the sink. -/
def isSinkPush : Event → Bool
  | .sinkPush _ _ => true
  | _ => false

/-! ### Shared helper lemmas -/

theorem mem_of_getLast?_eq_some {α : Type} {l : List α} {a : α}
    (h : l.getLast? = some a) : a ∈ l := by
  induction l with
  | nil => simp at h
  | cons x xs ih =>
    cases xs with
    | nil =>
      simp [List.getLast?] at h
      simp [h]
    | cons y ys =>
      rw [List.getLast?_cons_cons] at h
      exact List.mem_cons_of_mem x (ih h)

theorem length_pos_of_getLast?_eq_some {α : Type} {l : List α} {a : α}
    (h : l.getLast? = some a) : 0 < l.length := by
  cases l with
  | nil => simp at h
  | cons x xs => simp

theorem change_time_le_of_getLast? {l : List ChangeRow} {z : ChangeRow}
    (hp : l.Pairwise fun a b => a.change_time ≤ b.change_time)
    (hz : l.getLast? = some z) :
    ∀ x ∈ l, x.change_time ≤ z.change_time := by
  induction l with
  | nil => simp at hz
  | cons a as ih =>
    cases as with
    | nil =>
      simp [List.getLast?] at hz
      intro x hx
      simp at hx
      subst hx
      simp [← hz]
    | cons b bs =>
      rw [List.getLast?_cons_cons] at hz
      rcases List.pairwise_cons.mp hp with ⟨ha, hp'⟩
      intro x hx
      rcases List.mem_cons.mp hx with rfl | hx'
      · exact ha z (mem_of_getLast?_eq_some hz)
      · exact ih hp' hz x hx'

theorem fetchUpdatedRows_eq_of_rows (env : Env) (config : Config) {c : Nat}
    {rows : List ChangeRow} {lastRow : ChangeRow}
    (hc : env.connect config = true)
    (hcur : lastIndexedTime config.source.updatedAt = some c)
    (hq : env.queryRows (config.source.table_name ++ "_changelog") c = .ok rows)
    (hl : rows.getLast? = some lastRow) :
    fetchUpdatedRows env config =
      ((if env.esUpdateOk ("datasource_postgresql_connection_" ++ toLowerCase config.source.coid)
          config.id then Except.ok rows else Except.error ()),
       [.pgConnect, .pgQuery (config.source.table_name ++ "_changelog") (some c),
        .esUpdate ("datasource_postgresql_connection_" ++ toLowerCase config.source.coid)
          config.id lastRow.change_time, .pgRelease]) := by
  unfold fetchUpdatedRows updateTimeInElasticsearch
  rw [if_pos hc, hcur]
  simp only [hq, hl]
  by_cases hup : env.esUpdateOk
      ("datasource_postgresql_connection_" ++ toLowerCase config.source.coid) config.id = true
  · simp [hup]
  · simp [hup]

theorem fetchUpdatedRows_eq_of_empty (env : Env) (config : Config) {c : Nat}
    (hc : env.connect config = true)
    (hcur : lastIndexedTime config.source.updatedAt = some c)
    (hq : env.queryRows (config.source.table_name ++ "_changelog") c = .ok []) :
    fetchUpdatedRows env config =
      (.ok [], [.pgConnect, .pgQuery (config.source.table_name ++ "_changelog") (some c),
        .pgRelease]) := by
  unfold fetchUpdatedRows
  rw [if_pos hc, hcur]
  simp [hq, List.getLast?]

theorem fetchUpdatedRows_eq_of_queryFail (env : Env) (config : Config) {c : Nat}
    (hc : env.connect config = true)
    (hcur : lastIndexedTime config.source.updatedAt = some c)
    (hq : env.queryRows (config.source.table_name ++ "_changelog") c = .error ()) :
    fetchUpdatedRows env config =
      (.error (), [.pgConnect, .pgQuery (config.source.table_name ++ "_changelog") (some c),
        .pgRelease]) := by
  unfold fetchUpdatedRows
  rw [if_pos hc, hcur]
  simp [hq]

theorem fetchUpdatedRows_eq_of_invalid (env : Env) (config : Config)
    (hc : env.connect config = true)
    (hcur : lastIndexedTime config.source.updatedAt = none) :
    fetchUpdatedRows env config =
      (.error (), [.pgConnect, .pgQuery (config.source.table_name ++ "_changelog") none,
        .pgRelease]) := by
  unfold fetchUpdatedRows
  rw [if_pos hc, hcur]

theorem fetchUpdatedRows_eq_of_noConnect (env : Env) (config : Config)
    (hc : env.connect config = false) :
    fetchUpdatedRows env config = (.error (), []) := by
  unfold fetchUpdatedRows
  rw [hc]
  simp

theorem pushToAzureSearch_trace (env : Env) (documents : List SinkDoc) (indexName : String) :
    (pushToAzureSearch env documents indexName).2 = [.sinkPush documents indexName] := by
  unfold pushToAzureSearch
  split <;> rfl

theorem processConfig_sublist (env : Env) {c : Config} {cfgs : List Config}
    (h : c ∈ cfgs) : List.Sublist (processConfig env c) (processConfigs env cfgs) := by
  induction cfgs with
  | nil => simp at h
  | cons d ds ih =>
    rcases List.mem_cons.mp h with rfl | h'
    · rw [processConfigs]
      exact List.sublist_append_left _ _
    · rw [processConfigs]
      exact (ih h').trans (List.sublist_append_right _ _)

theorem processIndex_sublist (env : Env) {i : String} {idxs : List String}
    (h : i ∈ idxs) : List.Sublist (processIndex env i) (processIndices env idxs) := by
  induction idxs with
  | nil => simp at h
  | cons d ds ih =>
    rcases List.mem_cons.mp h with rfl | h'
    · rw [processIndices]
      exact List.sublist_append_left _ _
    · rw [processIndices]
      exact (ih h').trans (List.sublist_append_right _ _)

theorem getLast?_eq_none_iff {α : Type} {l : List α} : l.getLast? = none ↔ l = [] := by
  induction l with
  | nil => simp
  | cons x xs ih =>
    cases xs with
    | nil => simp [List.getLast?]
    | cons y ys =>
      rw [List.getLast?_cons_cons]
      simp_all

theorem fetchUpdatedRows_shape (env : Env) (config : Config)
    (hc : env.connect config = true) :
    ∃ cur : Option Nat, ∃ r : Except Unit (List ChangeRow), ∃ mid : List Event,
      fetchUpdatedRows env config =
        (r, .pgConnect ::
          .pgQuery (config.source.table_name ++ "_changelog") cur :: mid ++ [.pgRelease]) ∧
      (mid = [] ∨ ∃ w, mid =
        [.esUpdate ("datasource_postgresql_connection_" ++ toLowerCase config.source.coid)
          config.id w]) := by
  rcases hcur : lastIndexedTime config.source.updatedAt with _ | c
  · exact ⟨none, .error (), [],
      by rw [fetchUpdatedRows_eq_of_invalid env config hc hcur]; rfl, Or.inl rfl⟩
  · rcases hq : env.queryRows (config.source.table_name ++ "_changelog") c with u | rows
    · cases u
      exact ⟨some c, .error (), [],
        by rw [fetchUpdatedRows_eq_of_queryFail env config hc hcur hq]; rfl, Or.inl rfl⟩
    · rcases hl : rows.getLast? with _ | lastRow
      · have hrows : rows = [] := getLast?_eq_none_iff.mp hl
        subst hrows
        exact ⟨some c, .ok [], [],
          by rw [fetchUpdatedRows_eq_of_empty env config hc hcur hq]; rfl, Or.inl rfl⟩
      · exact ⟨some c,
          (if env.esUpdateOk
              ("datasource_postgresql_connection_" ++ toLowerCase config.source.coid)
              config.id then Except.ok rows else Except.error ()),
          [.esUpdate ("datasource_postgresql_connection_" ++ toLowerCase config.source.coid)
            config.id lastRow.change_time],
          by rw [fetchUpdatedRows_eq_of_rows env config hc hcur hq hl]; rfl,
          Or.inr ⟨lastRow.change_time, rfl⟩⟩

theorem fetchUpdatedRows_no_push (env : Env) (config : Config) :
    ∀ e ∈ (fetchUpdatedRows env config).2, isSinkPush e = false := by
  intro e he
  by_cases hc : env.connect config = true
  · rcases fetchUpdatedRows_shape env config hc with ⟨cur, r, mid, heq, hmid⟩
    rw [heq] at he
    rcases hmid with rfl | ⟨w, rfl⟩
    · simp at he
      rcases he with rfl | rfl | rfl <;> rfl
    · simp at he
      rcases he with rfl | rfl | rfl | rfl <;> rfl
  · rw [fetchUpdatedRows_eq_of_noConnect env config (by simpa using hc)] at he
    simp at he

theorem processAndIndexData_no_checkpoint (env : Env) (rows : List ChangeRow)
    (fieldType category indexName : String) :
    ∀ e ∈ (processAndIndexData env rows fieldType category indexName).2,
      isCheckpointWrite e = false := by
  intro e he
  unfold processAndIndexData at he
  split at he
  · simp at he
  · rw [pushToAzureSearch_trace] at he
    simp at he
    subst he
    rfl

/-! ### Concrete fixtures -/

def baseSource : SourceCfg :=
  { host := "h", user := "u", password := "p", database := "d"
    table_name := "t", field_name := "f", field_type := "text"
    category := "cat", coid := "ACME", updatedAt := .absent }

def cfgAbsent : Config := { id := "cfg1", source := baseSource }

def baseEnv : Env :=
  { catIndices := .ok []
    searchHits := fun _ => .ok []
    connect := fun _ => true
    queryRows := fun _ _ => .ok []
    esUpdateOk := fun _ _ => true
    proc := fun _ _ => .content "c"
    pushOk := fun _ _ => true }

/-! ### C1 — ordering of checkpoint write vs publish -/

def rowC1 : ChangeRow := ⟨1, 5, "v", "INSERT"⟩

def envC1 : Env :=
  { baseEnv with queryRows := fun _ _ => .ok [rowC1], pushOk := fun _ _ => false }

/-- C1, counterexample. In a run where the sink rejects the batch
(`envC1.pushOk` is constantly `false`), the fetch succeeds with one row, the
fetch call itself performs the metadata-store watermark write, the config's
processing then fails at the publish step, and yet the cycle's trace contains
the checkpoint write — placed before the publish attempt. This falsifies the
claim that the checkpoint is written only after a fully successful publish,
that a publish failure prevents the checkpoint write, and that the fetch
performs no write to the metadata store. -/
theorem C1_counterexample :
    envC1.pushOk [sinkDocumentFor rowC1 "c" "cat"] "tenant_acme" = false ∧
    (fetchUpdatedRows envC1 cfgAbsent).1 = .ok [rowC1] ∧
    ((fetchUpdatedRows envC1 cfgAbsent).2.filter isCheckpointWrite =
      [.esUpdate "datasource_postgresql_connection_acme" "cfg1" 5]) ∧
    (processConfigBody envC1 cfgAbsent).1 = .error () ∧
    processConfig envC1 cfgAbsent =
      [.pgConnect, .pgQuery "t_changelog" (some 0),
       .esUpdate "datasource_postgresql_connection_acme" "cfg1" 5, .pgRelease,
       .sinkPush [sinkDocumentFor rowC1 "c" "cat"] "tenant_acme"] :=
  ⟨rfl, rfl, by decide, rfl, by decide⟩

/-- C1, amended. Whenever the change-log query for a config succeeds with at
least one row, the new watermark (the last row's change time) is written to
the metadata store by the fetch operation itself, and in the config's whole
processing trace every checkpoint write happens inside the fetch segment,
before any sink publish (which can only appear in the tail after the fetch):
the checkpoint write therefore does not wait for the publish to succeed. -/
theorem C1_theorem (env : Env) (config : Config) (c : Nat)
    (rows : List ChangeRow) (lastRow : ChangeRow)
    (hc : env.connect config = true)
    (hcur : lastIndexedTime config.source.updatedAt = some c)
    (hq : env.queryRows (config.source.table_name ++ "_changelog") c = .ok rows)
    (hl : rows.getLast? = some lastRow) :
    Event.esUpdate ("datasource_postgresql_connection_" ++ toLowerCase config.source.coid)
        config.id lastRow.change_time ∈ (fetchUpdatedRows env config).2 ∧
    ∃ tail, processConfig env config = (fetchUpdatedRows env config).2 ++ tail ∧
      (∀ e ∈ (fetchUpdatedRows env config).2, isSinkPush e = false) ∧
      (∀ e ∈ tail, isCheckpointWrite e = false) := by
  have hfe := fetchUpdatedRows_eq_of_rows env config hc hcur hq hl
  constructor
  · rw [hfe]
    simp
  · by_cases hup : env.esUpdateOk
        ("datasource_postgresql_connection_" ++ toLowerCase config.source.coid)
        config.id = true
    · have hlen : 0 < rows.length := length_pos_of_getLast?_eq_some hl
      refine ⟨(processAndIndexData env rows config.source.field_type config.source.category
          ("tenant_" ++ toLowerCase config.source.coid)).2, ?_,
        fetchUpdatedRows_no_push env config,
        processAndIndexData_no_checkpoint env rows _ _ _⟩
      unfold processConfig processConfigBody
      rw [hfe]
      simp [hup, hlen]
    · refine ⟨[], ?_, fetchUpdatedRows_no_push env config, by simp⟩
      unfold processConfig processConfigBody
      rw [hfe]
      simp [hup]

def rowC1w : ChangeRow := ⟨7, 9, "v", "UPDATE"⟩

def envC1w : Env := { baseEnv with queryRows := fun _ _ => .ok [rowC1w] }

/-- C1, witness: the amended theorem applied to a concrete run. -/
theorem C1_witness :
    Event.esUpdate ("datasource_postgresql_connection_" ++ toLowerCase cfgAbsent.source.coid)
        cfgAbsent.id rowC1w.change_time ∈ (fetchUpdatedRows envC1w cfgAbsent).2 ∧
    ∃ tail, processConfig envC1w cfgAbsent = (fetchUpdatedRows envC1w cfgAbsent).2 ++ tail ∧
      (∀ e ∈ (fetchUpdatedRows envC1w cfgAbsent).2, isSinkPush e = false) ∧
      (∀ e ∈ tail, isCheckpointWrite e = false) :=
  C1_theorem envC1w cfgAbsent 0 [rowC1w] rowC1w rfl rfl rfl rfl

/-! ### C2 — watermark value, ordering, monotonicity -/

def rowC2a : ChangeRow := ⟨1, 5, "v", "INSERT"⟩

def rowC2b : ChangeRow := ⟨2, 3, "v", "UPDATE"⟩

def cfgC2 : Config := { id := "cfg1", source := { baseSource with updatedAt := .parseable 4 } }

def envC2 : Env := { baseEnv with queryRows := fun _ _ => .ok [rowC2a, rowC2b] }

/-- C2, counterexample. When the change-log source misbehaves and delivers
rows out of change-time order, `fetchUpdatedRows` returns them exactly as
delivered (a decreasing sequence) and writes the last delivered row's change
time (3) as the new watermark, although the previous watermark was 4: the
watermark moves backward. The implementation neither sorts nor rejects
unsorted input, falsifying that part of the claim. -/
theorem C2_counterexample :
    lastIndexedTime cfgC2.source.updatedAt = some 4 ∧
    (fetchUpdatedRows envC2 cfgC2).1 = .ok [rowC2a, rowC2b] ∧
    rowC2b.change_time < rowC2a.change_time ∧
    Event.esUpdate "datasource_postgresql_connection_acme" "cfg1" 3 ∈
      (fetchUpdatedRows envC2 cfgC2).2 ∧
    rowC2b.change_time < 4 :=
  ⟨rfl, rfl, by decide, by decide, by decide⟩

/-- C2, amended. The rows are returned exactly as delivered by the source
(no sorting, no rejection). Whenever the source honours the SQL contract —
the delivered rows are pairwise non-decreasing by change time and all lie
strictly after the cursor — the watermark written to the metadata store
equals the change time of the last returned row, it is strictly greater
than the cursor (never backward), and it bounds every returned row. -/
theorem C2_theorem (env : Env) (config : Config) (c : Nat)
    (rows : List ChangeRow) (lastRow : ChangeRow)
    (hc : env.connect config = true)
    (hcur : lastIndexedTime config.source.updatedAt = some c)
    (hq : env.queryRows (config.source.table_name ++ "_changelog") c = .ok rows)
    (hl : rows.getLast? = some lastRow)
    (hsort : rows.Pairwise fun a b => a.change_time ≤ b.change_time)
    (hgt : ∀ r ∈ rows, c < r.change_time) :
    Event.esUpdate ("datasource_postgresql_connection_" ++ toLowerCase config.source.coid)
        config.id lastRow.change_time ∈ (fetchUpdatedRows env config).2 ∧
    c < lastRow.change_time ∧
    (∀ r ∈ rows, r.change_time ≤ lastRow.change_time) ∧
    (env.esUpdateOk ("datasource_postgresql_connection_" ++ toLowerCase config.source.coid)
        config.id = true → (fetchUpdatedRows env config).1 = .ok rows) := by
  have hfe := fetchUpdatedRows_eq_of_rows env config hc hcur hq hl
  refine ⟨?_, ?_, ?_, ?_⟩
  · rw [hfe]
    simp
  · exact hgt lastRow (mem_of_getLast?_eq_some hl)
  · exact change_time_le_of_getLast? hsort hl
  · intro hup
    rw [hfe]
    simp [hup]

def rowC2w1 : ChangeRow := ⟨1, 6, "v", "INSERT"⟩

def rowC2w2 : ChangeRow := ⟨2, 8, "v", "UPDATE"⟩

def envC2w : Env := { baseEnv with queryRows := fun _ _ => .ok [rowC2w1, rowC2w2] }

/-- C2, witness: the amended theorem applied to a concrete sorted delivery
with cursor 4 and rows at times 6 and 8. -/
theorem C2_witness :
    Event.esUpdate ("datasource_postgresql_connection_" ++ toLowerCase cfgC2.source.coid)
        cfgC2.id rowC2w2.change_time ∈ (fetchUpdatedRows envC2w cfgC2).2 ∧
    4 < rowC2w2.change_time ∧
    (∀ r ∈ [rowC2w1, rowC2w2], r.change_time ≤ rowC2w2.change_time) ∧
    (envC2w.esUpdateOk
        ("datasource_postgresql_connection_" ++ toLowerCase cfgC2.source.coid)
        cfgC2.id = true → (fetchUpdatedRows envC2w cfgC2).1 = .ok [rowC2w1, rowC2w2]) :=
  C2_theorem envC2w cfgC2 4 [rowC2w1, rowC2w2] rowC2w2 rfl rfl rfl rfl
    (by decide) (by decide)

/-! ### C3 — empty fetch is a no-op -/

/-- C3. For every config whose change-log query returns zero rows, the fetch
succeeds with the empty list, the config's whole processing trace is exactly
the session acquire, the query, and the session release — so no checkpoint
write to the metadata store and no publish request to the sink occur. -/
theorem C3_theorem (env : Env) (config : Config) (c : Nat)
    (hc : env.connect config = true)
    (hcur : lastIndexedTime config.source.updatedAt = some c)
    (hq : env.queryRows (config.source.table_name ++ "_changelog") c = .ok []) :
    (fetchUpdatedRows env config).1 = .ok [] ∧
    processConfig env config =
      [.pgConnect, .pgQuery (config.source.table_name ++ "_changelog") (some c),
       .pgRelease] ∧
    (∀ e ∈ processConfig env config,
      isCheckpointWrite e = false ∧ isSinkPush e = false) := by
  have hfe := fetchUpdatedRows_eq_of_empty env config hc hcur hq
  have h2 : processConfig env config =
      [.pgConnect, .pgQuery (config.source.table_name ++ "_changelog") (some c),
       .pgRelease] := by
    unfold processConfig processConfigBody
    rw [hfe]
    simp
  refine ⟨by rw [hfe], h2, ?_⟩
  rw [h2]
  intro e he
  simp at he
  rcases he with rfl | rfl | rfl <;> exact ⟨rfl, rfl⟩

/-- C3, witness: a concrete config against a source with no new rows. -/
theorem C3_witness :
    (fetchUpdatedRows baseEnv cfgAbsent).1 = .ok [] ∧
    processConfig baseEnv cfgAbsent =
      [.pgConnect, .pgQuery (cfgAbsent.source.table_name ++ "_changelog") (some 0),
       .pgRelease] ∧
    (∀ e ∈ processConfig baseEnv cfgAbsent,
      isCheckpointWrite e = false ∧ isSinkPush e = false) :=
  C3_theorem baseEnv cfgAbsent 0 rfl rfl rfl

/-! ### C4 — entry point error behaviour -/

def envC4 : Env := { baseEnv with catIndices := .error () }

/-- C4, counterexample. With an unreachable catalog, connection discovery
fails (`fetchIndicesWithPrefix` throws), yet the entry point still returns
normally: its top-level catch swallows the discovery error too. This
falsifies the "throws if discovery fails" direction of the claim. -/
theorem C4_counterexample :
    (fetchIndicesWithPrefix envC4 "datasource_postgresql_connection_").1 = .error () ∧
    lastModifiedListener envC4 = (.ok (), [.esCatIndices]) :=
  ⟨rfl, rfl⟩

/-- C4, amended. The parameterless entry point always returns normally:
every failure, including a connection-discovery failure, is caught and
logged by its top-level catch, so it never throws. -/
theorem C4_theorem (env : Env) : (lastModifiedListener env).1 = Except.ok () := by
  unfold lastModifiedListener fetchIndicesWithPrefix
  cases env.catIndices with
  | error e => rfl
  | ok l =>
    split <;> first
    | rfl
    | (split <;> rfl)

/-! ### C5 — cursor computation -/

theorem fetchUpdatedRows_query_cursor (env : Env) (config : Config) (c : Nat)
    (hc : env.connect config = true)
    (hcur : lastIndexedTime config.source.updatedAt = some c) :
    ∃ r : Except Unit (List ChangeRow), ∃ rest : List Event,
      fetchUpdatedRows env config =
        (r, .pgConnect :: .pgQuery (config.source.table_name ++ "_changelog") (some c)
          :: rest) := by
  rcases hq : env.queryRows (config.source.table_name ++ "_changelog") c with u | rows
  · cases u
    exact ⟨.error (), [.pgRelease],
      by rw [fetchUpdatedRows_eq_of_queryFail env config hc hcur hq]⟩
  · rcases hl : rows.getLast? with _ | lastRow
    · have hrows : rows = [] := getLast?_eq_none_iff.mp hl
      subst hrows
      exact ⟨.ok [], [.pgRelease],
        by rw [fetchUpdatedRows_eq_of_empty env config hc hcur hq]⟩
    · exact ⟨(if env.esUpdateOk
            ("datasource_postgresql_connection_" ++ toLowerCase config.source.coid)
            config.id then Except.ok rows else Except.error ()),
        [.esUpdate ("datasource_postgresql_connection_" ++ toLowerCase config.source.coid)
          config.id lastRow.change_time, .pgRelease],
        by rw [fetchUpdatedRows_eq_of_rows env config hc hcur hq hl]⟩

def cfgC5 : Config :=
  { id := "cfg1", source := { baseSource with updatedAt := .unparseable "not-a-date" } }

/-- C5, counterexample. A present but unparseable checkpoint does not fall
back to the epoch: `new Date(unparseable)` is an Invalid Date, the query is
issued with an invalid cursor and fails, and no query with the epoch cursor
is ever made — the config's history is not fetched. -/
theorem C5_counterexample :
    lastIndexedTime (DateInput.unparseable "not-a-date") = none ∧
    fetchUpdatedRows baseEnv cfgC5 =
      (.error (), [.pgConnect, .pgQuery "t_changelog" none, .pgRelease]) ∧
    Event.pgQuery "t_changelog" (some 0) ∉ (fetchUpdatedRows baseEnv cfgC5).2 :=
  ⟨rfl, rfl, by decide⟩

/-- C5, amended. The fetch cursor equals the config's `updatedAt` when that
field is present and parseable; an absent or empty (falsy) field gives the
epoch. A present but unparseable field, however, yields an Invalid Date: the
fetch fails with an error instead of falling back to the epoch. -/
theorem C5_theorem (env : Env) (config : Config)
    (hc : env.connect config = true) :
    ((config.source.updatedAt = .absent ∨ config.source.updatedAt = .emptyStr) →
      ∃ r : Except Unit (List ChangeRow), ∃ rest : List Event,
        fetchUpdatedRows env config =
          (r, .pgConnect :: .pgQuery (config.source.table_name ++ "_changelog") (some 0)
            :: rest)) ∧
    (∀ t, config.source.updatedAt = .parseable t →
      ∃ r : Except Unit (List ChangeRow), ∃ rest : List Event,
        fetchUpdatedRows env config =
          (r, .pgConnect :: .pgQuery (config.source.table_name ++ "_changelog") (some t)
            :: rest)) ∧
    (∀ s, config.source.updatedAt = .unparseable s →
      fetchUpdatedRows env config =
        (.error (), [.pgConnect, .pgQuery (config.source.table_name ++ "_changelog") none,
          .pgRelease])) := by
  refine ⟨?_, ?_, ?_⟩
  · intro h
    have hcur : lastIndexedTime config.source.updatedAt = some 0 := by
      rcases h with h | h <;> rw [h] <;> rfl
    exact fetchUpdatedRows_query_cursor env config 0 hc hcur
  · intro t ht
    exact fetchUpdatedRows_query_cursor env config t hc (by rw [ht]; rfl)
  · intro s hs
    exact fetchUpdatedRows_eq_of_invalid env config hc (by rw [hs]; rfl)

def cfgC5p : Config :=
  { id := "cfg1", source := { baseSource with updatedAt := .parseable 44 } }

/-- C5, witness: the amended theorem applied to concrete configs with an
absent, a parseable (44) and an unparseable checkpoint. -/
theorem C5_witness :
    (∃ r : Except Unit (List ChangeRow), ∃ rest : List Event,
      fetchUpdatedRows baseEnv cfgAbsent =
        (r, .pgConnect :: .pgQuery (cfgAbsent.source.table_name ++ "_changelog") (some 0)
          :: rest)) ∧
    (∃ r : Except Unit (List ChangeRow), ∃ rest : List Event,
      fetchUpdatedRows baseEnv cfgC5p =
        (r, .pgConnect :: .pgQuery (cfgC5p.source.table_name ++ "_changelog") (some 44)
          :: rest)) ∧
    fetchUpdatedRows baseEnv cfgC5 =
      (.error (), [.pgConnect, .pgQuery (cfgC5.source.table_name ++ "_changelog") none,
        .pgRelease]) :=
  ⟨(C5_theorem baseEnv cfgAbsent rfl).1 (Or.inl rfl),
   (C5_theorem baseEnv cfgC5p rfl).2.1 44 rfl,
   (C5_theorem baseEnv cfgC5 rfl).2.2 "not-a-date" rfl⟩

/-! ### C6 — per-config and per-connection failure isolation -/

/-- C6. Every discovered connection's processing trace occurs, in order, as a
sublist of the whole cycle's trace, and for any connection whose config read
succeeded, every one of its configs' full processing traces occurs as a
sublist of the cycle's trace — for every environment, including those in
which arbitrary sibling configs or sibling connections fail. Failures are
swallowed at the (connection, config) granularity, so no failure can prevent
a sibling from being attempted. -/
theorem C6_theorem (env : Env) (idxs : List String) (idx : String)
    (hi : idx ∈ idxs) :
    List.Sublist (processIndex env idx) (processIndices env idxs) ∧
    (∀ cfgs : List Config, ∀ config : Config,
      (fetchIndexDetails env idx).1 = .ok cfgs → config ∈ cfgs →
      List.Sublist (processConfig env config) (processIndices env idxs)) := by
  refine ⟨processIndex_sublist env hi, ?_⟩
  intro cfgs config hok hcfg
  rcases hs : env.searchHits idx with u | hits
  · exfalso
    unfold fetchIndexDetails at hok
    rw [hs] at hok
    simp at hok
  · unfold fetchIndexDetails at hok
    rw [hs] at hok
    simp at hok
    subst hok
    have hred : processIndex env idx = [.esSearch idx] ++ processConfigs env hits := by
      unfold processIndex fetchIndexDetails
      rw [hs]
    have h1 : List.Sublist (processConfig env config) (processIndex env idx) := by
      rw [hred]
      exact (processConfig_sublist env hcfg).trans (List.sublist_append_right _ _)
    exact h1.trans (processIndex_sublist env hi)

def cfgC6bad : Config := { id := "bad", source := baseSource }

def cfgC6good : Config := { id := "good", source := baseSource }

def envC6 : Env :=
  { baseEnv with
    searchHits := fun _ => .ok [cfgC6bad, cfgC6good]
    connect := fun cf => cf.id == "good" }

/-- C6, witness: in a concrete run where the first config of the connection
fails (its session cannot even be acquired) the second config's trace still
occurs in the cycle's trace, and the connection's trace occurs in a cycle
that also contains another connection. -/
theorem C6_witness :
    List.Sublist (processIndex envC6 "idx1") (processIndices envC6 ["idx0", "idx1"]) ∧
    List.Sublist (processConfig envC6 cfgC6good) (processIndices envC6 ["idx0", "idx1"]) ∧
    (processConfigBody envC6 cfgC6bad).1 = .error () :=
  ⟨(C6_theorem envC6 ["idx0", "idx1"] "idx1" (by decide)).1,
   (C6_theorem envC6 ["idx0", "idx1"] "idx1" (by decide)).2
     [cfgC6bad, cfgC6good] cfgC6good rfl (by decide),
   rfl⟩

/-! ### C7 — per-row transformation failures -/

/-- C7. A row whose content processing throws or yields falsy (empty) content
is excluded from the output documents without aborting the batch: the batch
behaves exactly as if the row were not there, every sibling row that
transforms successfully still contributes its document, and (the batch being
non-empty) the publish request containing that document is still made. -/
theorem C7_theorem (env : Env) (ft cat iName : String)
    (r1 r2 : List ChangeRow) (b : ChangeRow)
    (hb : transformRow env ft cat b = none) :
    buildDocuments env (r1 ++ b :: r2) ft cat = buildDocuments env (r1 ++ r2) ft cat ∧
    processAndIndexData env (r1 ++ b :: r2) ft cat iName =
      processAndIndexData env (r1 ++ r2) ft cat iName ∧
    (∀ r ∈ r2, ∀ d, transformRow env ft cat r = some d →
      d ∈ buildDocuments env (r1 ++ b :: r2) ft cat ∧
      ∃ docs, (processAndIndexData env (r1 ++ b :: r2) ft cat iName).2 =
        [.sinkPush docs iName] ∧ d ∈ docs) := by
  have h1 : buildDocuments env (r1 ++ b :: r2) ft cat =
      buildDocuments env (r1 ++ r2) ft cat := by
    unfold buildDocuments
    rw [List.filterMap_append, List.filterMap_append]
    congr 1
    simp only [List.filterMap_cons, hb]
  refine ⟨h1, ?_, ?_⟩
  · unfold processAndIndexData
    rw [h1]
  · intro r hr d hd
    have hmem : d ∈ buildDocuments env (r1 ++ b :: r2) ft cat := by
      unfold buildDocuments
      rw [List.filterMap_append]
      apply List.mem_append_right
      simp only [List.filterMap_cons, hb]
      exact List.mem_filterMap.mpr ⟨r, hr, hd⟩
    have hne : (buildDocuments env (r1 ++ b :: r2) ft cat).isEmpty = false := by
      cases hdoc : buildDocuments env (r1 ++ b :: r2) ft cat with
      | nil => rw [hdoc] at hmem; simp at hmem
      | cons x xs => rfl
    refine ⟨hmem, buildDocuments env (r1 ++ b :: r2) ft cat, ?_, hmem⟩
    unfold processAndIndexData
    simp [hne, pushToAzureSearch_trace]

def envC7 : Env :=
  { baseEnv with
    proc := fun v _ => if v = "boom" then .thrown else .content v }

def rowC7a : ChangeRow := ⟨1, 1, "alpha", "INSERT"⟩

def rowC7b : ChangeRow := ⟨2, 2, "boom", "UPDATE"⟩

def rowC7c : ChangeRow := ⟨3, 3, "gamma", "UPDATE"⟩

/-- C7, witness: a concrete batch whose middle row's content processing
throws; the surrounding rows' documents survive and are pushed. -/
theorem C7_witness :
    buildDocuments envC7 ([rowC7a] ++ rowC7b :: [rowC7c]) "text" "cat" =
      buildDocuments envC7 ([rowC7a] ++ [rowC7c]) "text" "cat" ∧
    processAndIndexData envC7 ([rowC7a] ++ rowC7b :: [rowC7c]) "text" "cat" "tenant_acme" =
      processAndIndexData envC7 ([rowC7a] ++ [rowC7c]) "text" "cat" "tenant_acme" ∧
    (∀ r ∈ [rowC7c], ∀ d, transformRow envC7 "text" "cat" r = some d →
      d ∈ buildDocuments envC7 ([rowC7a] ++ rowC7b :: [rowC7c]) "text" "cat" ∧
      ∃ docs, (processAndIndexData envC7 ([rowC7a] ++ rowC7b :: [rowC7c])
          "text" "cat" "tenant_acme").2 =
        [.sinkPush docs "tenant_acme"] ∧ d ∈ docs) :=
  C7_theorem envC7 "text" "cat" "tenant_acme" [rowC7a] [rowC7c] rowC7b rfl

/-! ### C8 — document action and id derivation -/

/-- C8. Every document produced from a row carries `action` "upload" exactly
when the row's `action_type` is "INSERT" and "mergeOrUpload" for every other
action type (UPDATE and DELETE receive no distinct handling), and its `id`
is the row's `row_id` converted to a string. -/
theorem C8_theorem (env : Env) (ft cat : String) (row : ChangeRow) (d : SinkDoc)
    (hd : transformRow env ft cat row = some d) :
    d.id = toString row.row_id ∧
    (row.action_type = "INSERT" → d.action = "upload") ∧
    (row.action_type ≠ "INSERT" → d.action = "mergeOrUpload") := by
  unfold transformRow at hd
  cases hp : env.proc row.new_value ft with
  | content s =>
    rw [hp] at hd
    by_cases hs : s = ""
    · simp [hs] at hd
    · simp [hs] at hd
      subst hd
      refine ⟨rfl, ?_, ?_⟩
      · intro h
        simp [sinkDocumentFor, h]
      · intro h
        simp [sinkDocumentFor, h]
  | thrown =>
    rw [hp] at hd
    simp at hd

def rowC8i : ChangeRow := ⟨10, 1, "v", "INSERT"⟩

def rowC8u : ChangeRow := ⟨11, 2, "v", "UPDATE"⟩

def rowC8d : ChangeRow := ⟨12, 3, "v", "DELETE"⟩

/-- C8, witness: concrete INSERT, UPDATE and DELETE rows. -/
theorem C8_witness :
    (sinkDocumentFor rowC8i "c" "cat").action = "upload" ∧
    (sinkDocumentFor rowC8u "c" "cat").action = "mergeOrUpload" ∧
    (sinkDocumentFor rowC8d "c" "cat").action = "mergeOrUpload" ∧
    (sinkDocumentFor rowC8i "c" "cat").id = toString rowC8i.row_id :=
  ⟨(C8_theorem baseEnv "text" "cat" rowC8i (sinkDocumentFor rowC8i "c" "cat") rfl).2.1 rfl,
   (C8_theorem baseEnv "text" "cat" rowC8u (sinkDocumentFor rowC8u "c" "cat") rfl).2.2
     (by decide),
   (C8_theorem baseEnv "text" "cat" rowC8d (sinkDocumentFor rowC8d "c" "cat") rfl).2.2
     (by decide),
   (C8_theorem baseEnv "text" "cat" rowC8i (sinkDocumentFor rowC8i "c" "cat") rfl).1⟩

/-! ### C9 — scoped session, unconditional release -/

/-- C9. Per fetch call: when the session is acquired (connect succeeds), the
call's trace is exactly one acquire, followed by source work containing no
further acquire or release, followed by one release — on the success path
and on every failure path alike, so the one acquired session is always
released and none is held across or reused between configs. When connect
itself fails, no session exists and none is released. -/
theorem C9_theorem (env : Env) (config : Config) :
    (env.connect config = true →
      ∃ mid, (fetchUpdatedRows env config).2 = .pgConnect :: mid ++ [.pgRelease] ∧
        ∀ e ∈ mid, e ≠ .pgConnect ∧ e ≠ .pgRelease) ∧
    (env.connect config = false → (fetchUpdatedRows env config).2 = []) := by
  constructor
  · intro hc
    rcases fetchUpdatedRows_shape env config hc with ⟨cur, r, mid, heq, hmid⟩
    refine ⟨.pgQuery (config.source.table_name ++ "_changelog") cur :: mid, ?_, ?_⟩
    · rw [heq]
    · intro e he
      rcases hmid with rfl | ⟨w, rfl⟩
      · simp at he
        subst he
        exact ⟨fun h => Event.noConfusion h, fun h => Event.noConfusion h⟩
      · rcases List.mem_cons.mp he with rfl | he'
        · exact ⟨fun h => Event.noConfusion h, fun h => Event.noConfusion h⟩
        · simp at he'
          subst he'
          exact ⟨fun h => Event.noConfusion h, fun h => Event.noConfusion h⟩
  · intro hc
    rw [fetchUpdatedRows_eq_of_noConnect env config hc]

def envC9 : Env := { baseEnv with connect := fun _ => false }

/-- C9, witness: a concrete successful acquisition (balanced trace) and a
concrete failed acquisition (no session, nothing released). -/
theorem C9_witness :
    (∃ mid, (fetchUpdatedRows baseEnv cfgAbsent).2 = .pgConnect :: mid ++ [.pgRelease] ∧
      ∀ e ∈ mid, e ≠ .pgConnect ∧ e ≠ .pgRelease) ∧
    (fetchUpdatedRows envC9 cfgAbsent).2 = [] :=
  ⟨(C9_theorem baseEnv cfgAbsent).1 rfl, (C9_theorem envC9 cfgAbsent).2 rfl⟩

/-! ### C10 — publish exactly when documents exist -/

/-- C10. The sink is contacted if and only if the transformation produced at
least one document: an empty document list (including a non-empty batch in
which every row was dropped) makes the whole step a silent success with an
empty trace — no request of any kind reaches the sink — while a non-empty
document list results in exactly one bulk push of precisely those
documents. -/
theorem C10_theorem (env : Env) (rows : List ChangeRow) (ft cat iName : String) :
    (buildDocuments env rows ft cat = [] →
      processAndIndexData env rows ft cat iName = (.ok (), [])) ∧
    (buildDocuments env rows ft cat ≠ [] →
      (processAndIndexData env rows ft cat iName).2 =
        [.sinkPush (buildDocuments env rows ft cat) iName]) := by
  constructor
  · intro h
    unfold processAndIndexData
    rw [h]
    rfl
  · intro h
    have hne : (buildDocuments env rows ft cat).isEmpty = false := by
      cases hdoc : buildDocuments env rows ft cat with
      | nil => exact absurd hdoc h
      | cons x xs => rfl
    unfold processAndIndexData
    simp [hne, pushToAzureSearch_trace]

def rowC10 : ChangeRow := ⟨5, 5, "boom", "INSERT"⟩

/-- C10, witness: a non-empty batch whose only row is dropped sends nothing
to the sink, and a batch with a surviving document sends exactly one push. -/
theorem C10_witness :
    processAndIndexData envC7 [rowC10] "text" "cat" "tenant_acme" = (.ok (), []) ∧
    (processAndIndexData envC7 [rowC7a] "text" "cat" "tenant_acme").2 =
      [.sinkPush (buildDocuments envC7 [rowC7a] "text" "cat") "tenant_acme"] :=
  ⟨(C10_theorem envC7 [rowC10] "text" "cat" "tenant_acme").1 rfl,
   (C10_theorem envC7 [rowC7a] "text" "cat" "tenant_acme").2 (by decide)⟩
